import Mathlib

/-!
Verification of the aggregation pipeline of `M5_IndividualA.py`, a dashboard
over a CSV of country-level COVID-19 hospitalization and ICU admission counts.

The embedding models one table row as `Row`: the date and the four metric
columns are `Option`-valued because the loader coerces unparseable dates and
non-numeric metric cells to missing (`pd.to_datetime`/`pd.to_numeric` with
`errors="coerce"`).  Dates are modelled as `Nat` day ordinals and numeric
values as `ℚ`.  Pandas aggregation semantics are modelled as follows:

* comparisons against a missing date are false, so rows with a missing date
  never pass the date filter (pandas `NaT` comparisons);
* `.sum()` skips missing values and returns `0` on an empty or all-missing
  column (pandas default `skipna=True`, `min_count=0`);
* `groupby(key)` enumerates groups with keys sorted ascending (pandas default
  `sort=True`) and drops missing keys (`dropna=True`);
* `sort_values` with pandas' default kind (quicksort) guarantees the order
  of the sort key but not the relative order of ties; it is modelled by
  `List.insertionSort`, one admissible such sort, and no theorem asserts a
  tie order of a sorted result (the one concrete evaluation of a tied sort,
  the two-element C4 counterexample, is a case where the real sort also
  keeps the pre-sorted order);
* `Series.max()`/`idxmax()` give the maximum and its first occurrence in row
  order.
-/

abbrev Day := Nat

/-- One row of the loaded table (`load_data`, lines 35-46 of the script). -/
structure Row where
  country : String
  whoRegion : String
  dateReported : Option Day
  hosp7 : Option ℚ
  icu7 : Option ℚ
  hosp28 : Option ℚ
  icu28 : Option ℚ
  deriving DecidableEq, Repr

/-- The user's time-window choice (radio control, lines 88-93). -/
inductive Window where
  | weekly
  | monthly
  deriving DecidableEq, Repr

/-- Hospitalization column selected by the window choice (lines 95-101). -/
def hospCol : Window → Row → Option ℚ
  | .weekly => Row.hosp7
  | .monthly => Row.hosp28

/-- ICU column selected by the window choice (lines 95-102). -/
def icuCol : Window → Row → Option ℚ
  | .weekly => Row.icu7
  | .monthly => Row.icu28

/-- Date-range test of the filter at lines 121-124.  A missing date compares
false on both bounds, as pandas `NaT` comparisons do. -/
def dateInRange (s e : Day) (r : Row) : Bool :=
  match r.dateReported with
  | none => false
  | some d => decide (s ≤ d) && decide (d ≤ e)

/-- The date filter producing `df_global` (lines 121-124). -/
def filterByDate (rows : List Row) (s e : Day) : List Row :=
  rows.filter (dateInRange s e)

/-- Pandas column sum: missing values are skipped, never coerced to zero;
an empty or all-missing column sums to `0`. -/
def sumOpt (f : Row → Option ℚ) (rows : List Row) : ℚ :=
  (rows.filterMap f).sum

/-- Group keys of a pandas `groupby`: the distinct non-missing keys, sorted
ascending. -/
def groupKeys (rows : List Row) (key : Row → Option Day) : List Day :=
  List.insertionSort (· ≤ ·) (rows.filterMap key).dedup

/-- Distinct string group keys, sorted ascending (string keys here are never
missing). -/
def groupKeysStr (rows : List Row) (key : Row → String) : List String :=
  List.insertionSort (· ≤ ·) (rows.map key).dedup

/-- One row of the daily global series `df_ts`. -/
structure DayRow where
  dateReported : Day
  hospVal : ℚ
  icuVal : ℚ
  deriving DecidableEq, Repr

/-- The daily global series `df_ts` (lines 205-210): group `df_global` by
date, sum the chosen window's two columns per group, ascending by date. -/
def dfTs (g : List Row) (hc ic : Row → Option ℚ) : List DayRow :=
  (groupKeys g Row.dateReported).map fun d =>
    { dateReported := d
      hospVal := sumOpt hc (g.filter (fun r => r.dateReported == some d))
      icuVal := sumOpt ic (g.filter (fun r => r.dateReported == some d)) }

/-- Maximum of a metric over the series (`df_ts[col].max()`, lines 227/240);
`none` on an empty series. -/
def peakVal (series : List DayRow) (f : DayRow → ℚ) : Option ℚ :=
  match series.map f with
  | [] => none
  | v :: vs => some (vs.foldl max v)

/-- Date of the first row attaining the maximum
(`df_ts.loc[df_ts[col].idxmax(), "Date_reported"]`, lines 228/241). -/
def peakDate (series : List DayRow) (f : DayRow → ℚ) : Option Day :=
  match peakVal series f with
  | none => none
  | some m => (series.find? (fun x => f x == m)).map DayRow.dateReported

/-- The six WHO region codes offered by the country-group radio
(lines 373-381). -/
def regionCodes : List String := ["AMR", "EUR", "AFR", "EMR", "SEAR", "WPR"]

/-- The scoped subset `df_scope` (lines 384-387): the whole filtered set for
the global choice, else the rows of the chosen WHO region. -/
def dfScope (g : List Row) (target : Option String) : List Row :=
  match target with
  | none => g
  | some reg => g.filter (fun r => r.whoRegion == reg)

/-- One row of the country ranking `df_rank`. -/
structure RankRow where
  country : String
  totalHosp : ℚ
  deriving DecidableEq, Repr

/-- Descending-by-total comparison used by `sort_values("Total_hosp",
ascending=False)` on the ranking. -/
def rankGE (a b : RankRow) : Prop := b.totalHosp ≤ a.totalHosp

instance : DecidableRel rankGE := fun a b =>
  inferInstanceAs (Decidable (b.totalHosp ≤ a.totalHosp))

instance : IsTotal RankRow rankGE := ⟨fun a b => le_total b.totalHosp a.totalHosp⟩

instance : IsTrans RankRow rankGE := ⟨fun _ _ _ h1 h2 => le_trans h2 h1⟩

/-- The country ranking `df_rank` (lines 394-400): group the scoped subset by
country, sum the 7-day hospitalization column (a fixed literal in the script,
line 396), and sort descending by total.  `groupby` lists countries in
ascending order; the descending sort is pandas' default unstable quicksort,
modelled here by one admissible descending sort, so only tie-order-agnostic
properties of the result are asserted. -/
def dfRank (scope : List Row) : List RankRow :=
  List.insertionSort rankGE
    ((groupKeysStr scope Row.country).map fun c =>
      { country := c
        totalHosp := sumOpt Row.hosp7 (scope.filter (fun r => r.country == c)) })

/-- The top-5 country list `top_countries` (line 402). -/
def topCountries (scope : List Row) : List String :=
  ((dfRank scope).map RankRow.country).take 5

/-- One row of the regional summary `df_reg`. -/
structure RegRow where
  whoRegion : String
  totalHosp : ℚ
  totalIcu : ℚ
  icuPct : ℚ
  deriving DecidableEq, Repr

/-- Descending-by-total-hospitalizations comparison used by
`sort_values("Total_hosp", ascending=False)` on the regional summary. -/
def regGE (a b : RegRow) : Prop := b.totalHosp ≤ a.totalHosp

instance : DecidableRel regGE := fun a b =>
  inferInstanceAs (Decidable (b.totalHosp ≤ a.totalHosp))

instance : IsTotal RegRow regGE := ⟨fun a b => le_total b.totalHosp a.totalHosp⟩

instance : IsTrans RegRow regGE := ⟨fun _ _ _ h1 h2 => le_trans h2 h1⟩

/-- The regional ICU-share summary `df_reg` (lines 432-452): group
`df_global` by `WHO_region`, sum the two fixed 7-day columns, keep regions
with a strictly positive hospitalization total, attach
`ICU_pct = Total_icu / Total_hosp * 100`, sort descending by `Total_hosp`. -/
def dfReg (g : List Row) : List RegRow :=
  let grouped := (groupKeysStr g Row.whoRegion).map fun reg =>
    (reg, sumOpt Row.hosp7 (g.filter (fun r => r.whoRegion == reg)),
      sumOpt Row.icu7 (g.filter (fun r => r.whoRegion == reg)))
  let kept := grouped.filter fun x => decide (0 < x.2.1)
  List.insertionSort regGE
    (kept.map fun x =>
      { whoRegion := x.1
        totalHosp := x.2.1
        totalIcu := x.2.2
        icuPct := x.2.2 / x.2.1 * 100 })

/-- Everything one interaction renders after the global-empty guard passes:
the four summary scalars (lines 140-151), the daily series (205-210), the
country-trends view (384-405, `none` when its guards fire a warning), and
the regional summary (432-452). -/
structure Outputs where
  totalHosp : ℚ
  totalIcu : ℚ
  peakHosp : Option ℚ
  peakIcu : Option ℚ
  series : List DayRow
  countryView : Option (List String)
  regional : List RegRow
  deriving DecidableEq, Repr

/-- The per-interaction computation on the already-filtered subset `g`.
Summary totals use the fixed 7-day columns (lines 140-141); peaks and the
series use the window's columns; the country view is `none` exactly when one
of its two empty-guards (lines 390, 404) fires. -/
def computeOutputs (g : List Row) (w : Window) (target : Option String) : Outputs :=
  let ts := dfTs g (hospCol w) (icuCol w)
  let scope := dfScope g target
  { totalHosp := sumOpt Row.hosp7 g
    totalIcu := sumOpt Row.icu7 g
    peakHosp := peakVal ts DayRow.hospVal
    peakIcu := peakVal ts DayRow.icuVal
    series := ts
    countryView :=
      if scope.isEmpty then none
      else if (topCountries scope).isEmpty then none
      else some (topCountries scope)
    regional := dfReg g }

/-- Result of one interaction: `empty` models the `st.warning` + `st.stop`
at lines 126-128, which skips every downstream computation. -/
inductive DashResult where
  | empty
  | ok (outs : Outputs)
  deriving DecidableEq, Repr

/-- One full interaction (filter, global-empty guard, downstream pipeline). -/
def runDashboard (rows : List Row) (w : Window) (s e : Day)
    (target : Option String) : DashResult :=
  let g := filterByDate rows s e
  if g.isEmpty then .empty else .ok (computeOutputs g w target)

/-! Concrete rows used by witnesses and counterexamples. -/

/-- Sample row: Austria, EUR, day 1. -/
def rowA : Row := ⟨"Austria", "EUR", some 1, some 10, some 2, some 40, some 8⟩

/-- Sample row: Belgium, EUR, day 1, same 7-day hospitalization total as
`rowA`. -/
def rowB : Row := ⟨"Belgium", "EUR", some 1, some 10, some 3, some 50, some 9⟩

/-- Sample row with an unrecognized WHO region code. -/
def rowX : Row := ⟨"Xland", "XXX", some 2, some 5, some 1, none, none⟩

/-- Sample row whose date failed to parse. -/
def rowNoDate : Row := ⟨"Norway", "EUR", none, some 7, some 1, some 7, some 1⟩

/-- Sample table. -/
def exTable : List Row := [rowA, rowB, rowX, rowNoDate]

/-- Two-row table whose first-seen country order (Belgium, Austria) differs
from alphabetical order while the 7-day hospitalization totals tie. -/
def exTie : List Row := [rowB, rowA]

/-! Helper lemmas. -/

/-- The boolean date-range test holds exactly on parsed dates inside the
closed interval. -/
lemma dateInRange_iff (s e : Day) (r : Row) :
    dateInRange s e r = true ↔ ∃ d, r.dateReported = some d ∧ s ≤ d ∧ d ≤ e := by
  cases h : r.dateReported with
  | none => simp [dateInRange, h]
  | some d => simp [dateInRange, h]

/-- Membership in the date-filtered subset. -/
lemma mem_filterByDate {rows : List Row} {s e : Day} {r : Row} :
    r ∈ filterByDate rows s e ↔
      r ∈ rows ∧ ∃ d, r.dateReported = some d ∧ s ≤ d ∧ d ≤ e := by
  rw [filterByDate, List.mem_filter, dateInRange_iff]

/-! Claim theorems. -/

/-- Claim C1: a record appears in the date-filtered subset `df_global` iff it
is in the loaded table and its parsed date lies in the inclusive range
`[s, e]`; a record whose `Date_reported` failed to parse never appears in any
date-filtered result. -/
theorem date_filter_correct (rows : List Row) (s e : Day) (r : Row) :
    (r ∈ filterByDate rows s e ↔
      r ∈ rows ∧ ∃ d, r.dateReported = some d ∧ s ≤ d ∧ d ≤ e)
    ∧ (r.dateReported = none → r ∉ filterByDate rows s e) := by
  refine ⟨mem_filterByDate, fun hn hmem => ?_⟩
  obtain ⟨-, d, hd, -⟩ := mem_filterByDate.1 hmem
  rw [hn] at hd
  cases hd

/-- Witness for C1 at a concrete table: a row dated day 1 passes the filter
`[0, 5]`, and the row with an unparsed date is excluded. -/
theorem date_filter_correct_witness :
    rowA ∈ filterByDate exTable 0 5 ∧ rowNoDate ∉ filterByDate exTable 0 5 :=
  ⟨(date_filter_correct exTable 0 5 rowA).1.mpr
      ⟨by decide, 1, by decide, by decide, by decide⟩,
    (date_filter_correct exTable 0 5 rowNoDate).2 (by decide)⟩

/-- Claim C5: the country ranking is computed from the fixed 7-day
hospitalization column, so the weekly/monthly window choice never changes the
country-trends view (ranking, hence top-5 set and order). -/
theorem ranking_basis_fixed (g : List Row) (target : Option String)
    (w₁ w₂ : Window) :
    (computeOutputs g w₁ target).countryView = (computeOutputs g w₂ target).countryView
    ∧ ∀ x ∈ dfRank (dfScope g target),
        x.totalHosp =
          sumOpt Row.hosp7 ((dfScope g target).filter (fun r => r.country == x.country)) := by
  refine ⟨rfl, fun x hx => ?_⟩
  simp only [dfRank, List.mem_insertionSort, List.mem_map] at hx
  obtain ⟨c, hc, rfl⟩ := hx
  rfl

/-- Concrete evaluation: the ranking of the one-row table `[rowA]`. -/
lemma dfRank_rowA : dfRank [rowA] = [⟨"Austria", 10⟩] := by
  simp [dfRank, groupKeysStr, rowA, sumOpt, List.insertionSort, List.orderedInsert,
    List.filterMap_cons, List.filterMap_nil]

/-- Witness for C5 at a concrete table: swapping weekly for monthly leaves the
country view unchanged, and Austria's ranked total is its 7-day sum. -/
theorem ranking_basis_fixed_witness :
    (computeOutputs [rowA] .weekly none).countryView
        = (computeOutputs [rowA] .monthly none).countryView
    ∧ (⟨"Austria", 10⟩ : RankRow).totalHosp =
        sumOpt Row.hosp7
          ((dfScope [rowA] none).filter
            (fun r => r.country == (⟨"Austria", 10⟩ : RankRow).country)) :=
  ⟨(ranking_basis_fixed [rowA] none .weekly .monthly).1,
    (ranking_basis_fixed [rowA] none .weekly .monthly).2 ⟨"Austria", 10⟩
      (by rw [show dfScope [rowA] none = [rowA] from rfl, dfRank_rowA]; simp)⟩

/-- Claim C10: the two summary totals always sum the fixed 7-day columns over
the filtered subset, for either window choice, so the window choice never
affects them; the two peak scalars, by contrast, are the maxima of the chosen
window's columns over the daily series. -/
theorem totals_fixed_basis (g : List Row) (target : Option String) (w : Window) :
    (computeOutputs g w target).totalHosp = (g.filterMap Row.hosp7).sum
    ∧ (computeOutputs g w target).totalIcu = (g.filterMap Row.icu7).sum
    ∧ (computeOutputs g .weekly target).totalHosp
        = (computeOutputs g .monthly target).totalHosp
    ∧ (computeOutputs g .weekly target).totalIcu
        = (computeOutputs g .monthly target).totalIcu
    ∧ (computeOutputs g w target).peakHosp
        = peakVal (dfTs g (hospCol w) (icuCol w)) DayRow.hospVal
    ∧ (computeOutputs g w target).peakIcu
        = peakVal (dfTs g (hospCol w) (icuCol w)) DayRow.icuVal :=
  ⟨rfl, rfl, rfl, rfl, rfl, rfl⟩

/-! Group-key lemmas. -/

/-- Group keys are sorted ascending. -/
lemma groupKeys_sorted (rows : List Row) (key : Row → Option Day) :
    (groupKeys rows key).Sorted (· ≤ ·) :=
  List.sorted_insertionSort _ _

/-- Group keys are distinct. -/
lemma groupKeys_nodup (rows : List Row) (key : Row → Option Day) :
    (groupKeys rows key).Nodup :=
  (List.perm_insertionSort _ _).nodup_iff.mpr (List.nodup_dedup _)

/-- Group keys are strictly increasing. -/
lemma groupKeys_sorted_lt (rows : List Row) (key : Row → Option Day) :
    (groupKeys rows key).Sorted (· < ·) :=
  ((groupKeys_sorted rows key).and (groupKeys_nodup rows key)).imp
    (fun h => lt_of_le_of_ne h.1 h.2)

/-- The group keys are exactly the non-missing key values of the rows. -/
lemma mem_groupKeys {rows : List Row} {key : Row → Option Day} {d : Day} :
    d ∈ groupKeys rows key ↔ ∃ r ∈ rows, key r = some d := by
  simp [groupKeys, List.mem_insertionSort, List.mem_dedup, List.mem_filterMap]

/-- String group keys are sorted ascending. -/
lemma groupKeysStr_sorted (rows : List Row) (key : Row → String) :
    (groupKeysStr rows key).Sorted (· ≤ ·) :=
  List.sorted_insertionSort _ _

/-- String group keys are distinct. -/
lemma groupKeysStr_nodup (rows : List Row) (key : Row → String) :
    (groupKeysStr rows key).Nodup :=
  (List.perm_insertionSort _ _).nodup_iff.mpr (List.nodup_dedup _)

/-- String group keys are strictly increasing. -/
lemma groupKeysStr_sorted_lt (rows : List Row) (key : Row → String) :
    (groupKeysStr rows key).Sorted (· < ·) :=
  ((groupKeysStr_sorted rows key).and (groupKeysStr_nodup rows key)).imp
    (fun h => lt_of_le_of_ne h.1 h.2)

/-- The string group keys are exactly the key values of the rows. -/
lemma mem_groupKeysStr {rows : List Row} {key : Row → String} {c : String} :
    c ∈ groupKeysStr rows key ↔ ∃ r ∈ rows, key r = c := by
  simp [groupKeysStr, List.mem_insertionSort, List.mem_dedup, List.mem_map]

/-- There are as many string group keys as distinct key values. -/
lemma groupKeysStr_length (rows : List Row) (key : Row → String) :
    (groupKeysStr rows key).length = (rows.map key).dedup.length := by
  simp [groupKeysStr]

/-- Claim C6: the top-countries list has exactly
`min 5 (number of distinct countries in scope)` entries, and when at most 5
distinct countries are in scope it contains exactly the countries in
scope. -/
theorem top5_cap (scope : List Row) :
    (topCountries scope).length = min 5 ((scope.map Row.country).dedup.length)
    ∧ ((scope.map Row.country).dedup.length ≤ 5 →
        ∀ c : String, c ∈ topCountries scope ↔ ∃ r ∈ scope, r.country = c) := by
  constructor
  · simp [topCountries, dfRank, groupKeysStr, List.length_take]
  · intro hle c
    have hlen : ((dfRank scope).map RankRow.country).length
        = (scope.map Row.country).dedup.length := by
      simp [dfRank, groupKeysStr]
    rw [topCountries, List.take_of_length_le (by rw [hlen]; exact hle)]
    constructor
    · intro hc
      obtain ⟨x, hx, hxc⟩ := List.mem_map.1 hc
      rw [dfRank, List.mem_insertionSort] at hx
      obtain ⟨k, hk, rfl⟩ := List.mem_map.1 hx
      obtain ⟨r, hr, hrk⟩ := mem_groupKeysStr.mp hk
      exact ⟨r, hr, hrk.trans hxc⟩
    · rintro ⟨r, hr, rfl⟩
      apply List.mem_map.mpr
      refine ⟨⟨r.country, sumOpt Row.hosp7 (scope.filter (fun q => q.country == r.country))⟩,
        ?_, rfl⟩
      rw [dfRank, List.mem_insertionSort]
      apply List.mem_map.mpr
      exact ⟨r.country, mem_groupKeysStr.mpr ⟨r, hr, rfl⟩, rfl⟩

/-- Witness for C6 at a concrete one-country table. -/
theorem top5_cap_witness :
    (topCountries [rowA]).length = min 5 (([rowA].map Row.country).dedup.length)
    ∧ ("Austria" ∈ topCountries [rowA] ↔ ∃ r ∈ [rowA], r.country = "Austria") :=
  ⟨(top5_cap [rowA]).1, (top5_cap [rowA]).2 (by simp) "Austria"⟩

/-! Daily-series lemmas. -/

/-- The dates of the daily series are its group keys. -/
lemma dfTs_map_date (g : List Row) (hc ic : Row → Option ℚ) :
    (dfTs g hc ic).map DayRow.dateReported = groupKeys g Row.dateReported := by
  simp only [dfTs, List.map_map]
  exact List.map_id _

/-- The dates of the daily series increase weakly along the list. -/
lemma dfTs_pairwise_le (g : List Row) (hc ic : Row → Option ℚ) :
    (dfTs g hc ic).Pairwise (fun a b => a.dateReported ≤ b.dateReported) := by
  rw [dfTs]
  exact (List.pairwise_map).mpr ((groupKeys_sorted g Row.dateReported).imp (fun h => h))

/-- Every row of the daily series carries the per-date sums of the two
selected columns, missing values skipped. -/
lemma mem_dfTs_val {g : List Row} {hc ic : Row → Option ℚ} {x : DayRow}
    (hx : x ∈ dfTs g hc ic) :
    x.hospVal = ((g.filter (fun r => r.dateReported == some x.dateReported)).filterMap hc).sum
    ∧ x.icuVal = ((g.filter (fun r => r.dateReported == some x.dateReported)).filterMap ic).sum := by
  rw [dfTs] at hx
  obtain ⟨d, hd, rfl⟩ := List.mem_map.1 hx
  exact ⟨rfl, rfl⟩

/-- Claim C3: the daily series has one row per distinct date present in the
subset, in strictly ascending date order, and each row's two values are the
sums of the chosen window's columns over the rows of that date, with missing
values skipped rather than zero-filled. -/
theorem daily_totals_correct (g : List Row) (w : Window) :
    ((dfTs g (hospCol w) (icuCol w)).map DayRow.dateReported).Sorted (· < ·)
    ∧ (∀ d : Day,
        d ∈ (dfTs g (hospCol w) (icuCol w)).map DayRow.dateReported ↔
          ∃ r ∈ g, r.dateReported = some d)
    ∧ ∀ x ∈ dfTs g (hospCol w) (icuCol w),
        x.hospVal =
          ((g.filter (fun r => r.dateReported == some x.dateReported)).filterMap (hospCol w)).sum
        ∧ x.icuVal =
          ((g.filter (fun r => r.dateReported == some x.dateReported)).filterMap (icuCol w)).sum := by
  refine ⟨?_, ?_, fun x hx => mem_dfTs_val hx⟩
  · rw [dfTs_map_date]
    exact groupKeys_sorted_lt g Row.dateReported
  · intro d
    rw [dfTs_map_date]
    exact mem_groupKeys

/-- Concrete evaluation: the weekly daily series of the two-row table
`[rowA, rowX]`. -/
lemma dfTs_rowA_rowX :
    dfTs [rowA, rowX] (hospCol .weekly) (icuCol .weekly) = [⟨1, 10, 2⟩, ⟨2, 5, 1⟩] := by
  simp +decide [dfTs, groupKeys, rowA, rowX, sumOpt, hospCol, icuCol, List.insertionSort,
    List.orderedInsert, List.filterMap_cons, List.filterMap_nil]

/-- Witness for C3 at a concrete table: day 1 is a row of the series and its
hospitalization value is the sum over that date's rows. -/
theorem daily_totals_correct_witness :
    (⟨1, 10, 2⟩ : DayRow) ∈ dfTs [rowA, rowX] (hospCol .weekly) (icuCol .weekly)
    ∧ (⟨1, 10, 2⟩ : DayRow).hospVal =
        (([rowA, rowX].filter
            (fun r => r.dateReported == some (⟨1, 10, 2⟩ : DayRow).dateReported)).filterMap
          (hospCol .weekly)).sum := by
  have hmem : (⟨1, 10, 2⟩ : DayRow) ∈ dfTs [rowA, rowX] (hospCol .weekly) (icuCol .weekly) := by
    rw [dfTs_rowA_rowX]; simp
  exact ⟨hmem, ((daily_totals_correct [rowA, rowX] .weekly).2.2 ⟨1, 10, 2⟩ hmem).1⟩

/-! Peak lemmas. -/

/-- A `foldl max` over a list is one of its elements or the seed. -/
lemma foldl_max_mem : ∀ (vs : List ℚ) (v : ℚ), vs.foldl max v ∈ v :: vs := by
  intro vs
  induction vs with
  | nil => intro v; simp
  | cons w ws ih =>
    intro v
    have h := ih (max v w)
    rcases List.mem_cons.mp h with h1 | h1
    · rcases max_choice v w with hm | hm <;>
        simp only [List.foldl_cons] <;> rw [h1, hm] <;> simp
    · simp only [List.foldl_cons]
      exact List.mem_cons.mpr (Or.inr (List.mem_cons.mpr (Or.inr h1)))

/-- A `foldl max` bounds the seed and every element. -/
lemma le_foldl_max : ∀ (vs : List ℚ) (v x : ℚ), x ∈ v :: vs → x ≤ vs.foldl max v := by
  intro vs
  induction vs with
  | nil =>
    intro v x hx
    rw [List.mem_singleton] at hx
    simp [hx]
  | cons w ws ih =>
    intro v x hx
    simp only [List.foldl_cons]
    rcases List.mem_cons.mp hx with rfl | hx'
    · exact le_trans (le_max_left x w) (ih (max x w) _ (List.mem_cons_self _ _))
    · rcases List.mem_cons.mp hx' with rfl | hx''
      · exact le_trans (le_max_right v x) (ih (max v x) _ (List.mem_cons_self _ _))
      · exact ih (max v w) x (List.mem_cons.mpr (Or.inr hx''))

/-- On a series with weakly increasing dates, `find?` returns a row whose
date is minimal among all rows satisfying the predicate. -/
lemma find?_min_date (p : DayRow → Bool) :
    ∀ (series : List DayRow) (x0 : DayRow),
      series.Pairwise (fun a b => a.dateReported ≤ b.dateReported) →
      series.find? p = some x0 →
      ∀ y ∈ series, p y = true → x0.dateReported ≤ y.dateReported := by
  intro series
  induction series with
  | nil => intro x0 _ hfind; cases hfind
  | cons a l ih =>
    intro x0 hpw hfind y hy hpy
    by_cases hpa : p a = true
    · rw [List.find?_cons_of_pos _ hpa] at hfind
      cases hfind
      rcases List.mem_cons.mp hy with rfl | hyl
      · exact le_refl _
      · exact (List.pairwise_cons.mp hpw).1 y hyl
    · rw [List.find?_cons_of_neg _ hpa] at hfind
      rcases List.mem_cons.mp hy with rfl | hyl
      · exact absurd hpy hpa
      · exact ih x0 (List.Pairwise.of_cons hpw) hfind y hyl hpy

/-- Full correctness of the peak pair for a metric `f` over a series: the
reported value is attained and maximal, and the reported date is the date of
the first row attaining it, hence minimal among attaining rows when the
series is sorted by date. -/
def PeakSpec (series : List DayRow) (f : DayRow → ℚ) : Prop :=
  ∃ m d, peakVal series f = some m ∧ peakDate series f = some d
    ∧ (∀ x ∈ series, f x ≤ m)
    ∧ (∃ x ∈ series, f x = m ∧ x.dateReported = d)
    ∧ ∀ x ∈ series, f x = m → d ≤ x.dateReported

/-- The peak pair is correct on any non-empty date-sorted series. -/
lemma peak_spec (series : List DayRow) (f : DayRow → ℚ)
    (hsort : series.Pairwise (fun a b => a.dateReported ≤ b.dateReported))
    (hne : series ≠ []) : PeakSpec series f := by
  match series, hne with
  | a :: l, _ =>
    have hval : peakVal (a :: l) f = some ((l.map f).foldl max (f a)) := rfl
    set m := (l.map f).foldl max (f a) with hm
    have hmem : m ∈ (a :: l).map f := by
      have := foldl_max_mem (l.map f) (f a)
      simpa using this
    have hle : ∀ x ∈ a :: l, f x ≤ m := by
      intro x hx
      apply le_foldl_max (l.map f) (f a) (f x)
      have : f x ∈ (a :: l).map f := List.mem_map_of_mem f hx
      simpa using this
    obtain ⟨x1, hx1, hfx1⟩ := List.mem_map.1 hmem
    have hfindsome : ((a :: l).find? (fun x => f x == m)).isSome := by
      rw [List.find?_isSome]
      exact ⟨x1, hx1, by simp [hfx1]⟩
    obtain ⟨x0, hx0⟩ := Option.isSome_iff_exists.mp hfindsome
    have hx0mem : x0 ∈ a :: l := List.mem_of_find?_eq_some hx0
    have hx0val : f x0 = m := by
      have := List.find?_some hx0
      simpa using this
    have hdate : peakDate (a :: l) f = some x0.dateReported := by
      rw [peakDate, hval]
      simp [hx0]
    refine ⟨m, x0.dateReported, hval, hdate, hle, ⟨x0, hx0mem, hx0val, rfl⟩, ?_⟩
    intro y hy hfy
    exact find?_min_date _ (a :: l) x0 hsort hx0 y hy (by simp [hfy])

/-- Claim C2: on every non-empty daily series, for each of the two metrics
the reported peak value is the maximum over the series (no row exceeds it)
and the reported peak date is the first date attaining that maximum in
ascending-date order. -/
theorem peak_correct (g : List Row) (w : Window)
    (hne : dfTs g (hospCol w) (icuCol w) ≠ []) :
    PeakSpec (dfTs g (hospCol w) (icuCol w)) DayRow.hospVal
    ∧ PeakSpec (dfTs g (hospCol w) (icuCol w)) DayRow.icuVal :=
  ⟨peak_spec _ _ (dfTs_pairwise_le g (hospCol w) (icuCol w)) hne,
    peak_spec _ _ (dfTs_pairwise_le g (hospCol w) (icuCol w)) hne⟩

/-- Witness for C2 at a concrete table with a non-empty series. -/
theorem peak_correct_witness :
    dfTs [rowA, rowX] (hospCol .weekly) (icuCol .weekly) ≠ []
    ∧ (PeakSpec (dfTs [rowA, rowX] (hospCol .weekly) (icuCol .weekly)) DayRow.hospVal
        ∧ PeakSpec (dfTs [rowA, rowX] (hospCol .weekly) (icuCol .weekly)) DayRow.icuVal) :=
  ⟨by rw [dfTs_rowA_rowX]; simp,
    peak_correct [rowA, rowX] .weekly (by rw [dfTs_rowA_rowX]; simp)⟩

/-- Counterexample to C4 as stated: in the table `exTie` the first-seen
country order is Belgium before Austria and both countries tie at total 10,
yet the ranking lists Austria first.  The grouping step has already
reordered the countries alphabetically before the sort, and on this
two-element tied input the sort keeps that order, so the output order is
not the first-seen source order. -/
theorem ranking_order_counterexample :
    dfRank exTie = [⟨"Austria", 10⟩, ⟨"Belgium", 10⟩]
    ∧ exTie.map Row.country = ["Belgium", "Austria"] := by
  constructor
  · simp +decide [dfRank, groupKeysStr, exTie, rowA, rowB, sumOpt, List.insertionSort,
      List.orderedInsert, rankGE, List.filterMap_cons, List.filterMap_nil]
  · simp [exTie, rowA, rowB]

/-- Claim C4 (amended): the country ranking is sorted descending by total —
every pair in output order satisfies `a.total ≥ b.total` — while the order
among countries with equal totals is left unspecified (the grouping step
reorders countries alphabetically and the sort of line 399 is pandas'
default unstable quicksort, so first-seen source order is not preserved;
no tie order is asserted here). -/
theorem ranking_order_amended (scope : List Row) :
    (dfRank scope).Pairwise (fun a b => b.totalHosp ≤ a.totalHosp) := by
  rw [dfRank]
  exact List.sorted_insertionSort rankGE _

/-- Concrete evaluation: the regional summary of the one-row table
`[rowA]`. -/
lemma dfReg_rowA : dfReg [rowA] = [⟨"EUR", 10, 2, 20⟩] := by
  norm_num [dfReg, groupKeysStr, rowA, sumOpt, List.insertionSort, List.orderedInsert,
    regGE, List.filterMap_cons, List.filterMap_nil]

/-- Claim C7: every row of the regional summary has a strictly positive
hospitalization total, its ICU share is exactly
`total_icu / total_hosp * 100`, and the summary is sorted descending by the
hospitalization total. -/
theorem regional_icu_share_correct (g : List Row) :
    (∀ x ∈ dfReg g, 0 < x.totalHosp ∧ x.icuPct = x.totalIcu / x.totalHosp * 100)
    ∧ (dfReg g).Pairwise (fun a b => b.totalHosp ≤ a.totalHosp) := by
  constructor
  · intro x hx
    simp only [dfReg, List.mem_insertionSort, List.mem_map, List.mem_filter,
      decide_eq_true_eq] at hx
    obtain ⟨a, ⟨hmem, hpos⟩, rfl⟩ := hx
    exact ⟨hpos, rfl⟩
  · exact List.sorted_insertionSort regGE _

/-- Witness for C7 at a concrete table: the EUR summary row has positive
total and ICU share 20 = 2 / 10 * 100. -/
theorem regional_icu_share_correct_witness :
    (0 : ℚ) < (⟨"EUR", 10, 2, 20⟩ : RegRow).totalHosp
    ∧ (⟨"EUR", 10, 2, 20⟩ : RegRow).icuPct
        = (⟨"EUR", 10, 2, 20⟩ : RegRow).totalIcu
            / (⟨"EUR", 10, 2, 20⟩ : RegRow).totalHosp * 100 := by
  have hmem : (⟨"EUR", 10, 2, 20⟩ : RegRow) ∈ dfReg [rowA] := by
    rw [dfReg_rowA]; simp
  exact (regional_icu_share_correct [rowA]).1 _ hmem

/-- Counterexample to C8 as stated: the row `rowX` carries the unrecognized
region code `"XXX"`, yet that code appears as its own row in the regional
ICU-share summary — a regional view — so unrecognized regions are not
excluded from every regional view. -/
theorem unrecognized_region_counterexample :
    "XXX" ∈ (dfReg [rowX]).map RegRow.whoRegion ∧ "XXX" ∉ regionCodes := by
  refine ⟨?_, by decide⟩
  norm_num [dfReg, groupKeysStr, rowX, sumOpt, List.insertionSort, List.orderedInsert,
    regGE, List.filterMap_cons, List.filterMap_nil]

/-- Claim C8 (amended): a row whose region code is not one of the six
enumerated codes never matches any regional scope filter, still contributes
to the global views (its date appears in the global daily series), but is
not dropped from the regional ICU-share summary: when its region's
hospitalization total is positive, that unrecognized code appears there as
its own group. -/
theorem unrecognized_region_amended (g : List Row) (r : Row) (hmem : r ∈ g)
    (hreg : r.whoRegion ∉ regionCodes) :
    (∀ code ∈ regionCodes, r ∉ dfScope g (some code))
    ∧ (∀ (w : Window) (d : Day), r.dateReported = some d →
        d ∈ (dfTs g (hospCol w) (icuCol w)).map DayRow.dateReported)
    ∧ (0 < sumOpt Row.hosp7 (g.filter (fun x => x.whoRegion == r.whoRegion)) →
        r.whoRegion ∈ (dfReg g).map RegRow.whoRegion) := by
  refine ⟨?_, ?_, ?_⟩
  · intro code hcode hin
    simp only [dfScope] at hin
    have hbeq := (List.mem_filter.mp hin).2
    rw [beq_iff_eq] at hbeq
    exact hreg (hbeq ▸ hcode)
  · intro w d hd
    rw [dfTs_map_date, mem_groupKeys]
    exact ⟨r, hmem, hd⟩
  · intro hpos
    have hkey : r.whoRegion ∈ groupKeysStr g Row.whoRegion :=
      mem_groupKeysStr.mpr ⟨r, hmem, rfl⟩
    apply List.mem_map.mpr
    refine ⟨{ whoRegion := r.whoRegion
              totalHosp := sumOpt Row.hosp7 (g.filter (fun x => x.whoRegion == r.whoRegion))
              totalIcu := sumOpt Row.icu7 (g.filter (fun x => x.whoRegion == r.whoRegion))
              icuPct := sumOpt Row.icu7 (g.filter (fun x => x.whoRegion == r.whoRegion))
                / sumOpt Row.hosp7 (g.filter (fun x => x.whoRegion == r.whoRegion)) * 100 },
      ?_, rfl⟩
    show _ ∈ dfReg g
    simp only [dfReg, List.mem_insertionSort]
    apply List.mem_map.mpr
    refine ⟨(r.whoRegion,
        sumOpt Row.hosp7 (g.filter (fun x => x.whoRegion == r.whoRegion)),
        sumOpt Row.icu7 (g.filter (fun x => x.whoRegion == r.whoRegion))), ?_, rfl⟩
    rw [List.mem_filter]
    refine ⟨?_, by simpa using hpos⟩
    apply List.mem_map.mpr
    exact ⟨r.whoRegion, hkey, rfl⟩

/-- Witness for C8 at a concrete table: the `"XXX"` row is excluded from the
EUR scope, its date is in the global series, and `"XXX"` shows up in the
regional summary. -/
theorem unrecognized_region_amended_witness :
    rowX ∉ dfScope [rowX] (some "EUR")
    ∧ (2 : Day) ∈ (dfTs [rowX] (hospCol .weekly) (icuCol .weekly)).map DayRow.dateReported
    ∧ "XXX" ∈ (dfReg [rowX]).map RegRow.whoRegion := by
  have h := unrecognized_region_amended [rowX] rowX (by simp) (by decide)
  refine ⟨h.1 "EUR" (by decide), h.2.1 .weekly 2 rfl, h.2.2 ?_⟩
  norm_num [sumOpt, rowX, List.filterMap_cons, List.filterMap_nil]

/-- A non-empty scope always yields a non-empty top-countries list (its
length is `min 5` of a positive count), so the inner `not top_countries`
guard at line 404 never fires once the scope guard passed. -/
lemma topCountries_ne_nil {scope : List Row} (h : scope ≠ []) : topCountries scope ≠ [] := by
  have hlen : (topCountries scope).length = min 5 ((scope.map Row.country).dedup.length) := by
    simp [topCountries, dfRank, groupKeysStr, List.length_take]
  match scope, h with
  | r :: rest, _ =>
    intro hnil
    rw [hnil] at hlen
    have hmem : r.country ∈ ((r :: rest).map Row.country).dedup :=
      List.mem_dedup.mpr (by simp)
    have hpos : 0 < ((r :: rest).map Row.country).dedup.length :=
      List.length_pos.mpr (List.ne_nil_of_mem hmem)
    have hmin : (0 : Nat) < min 5 ((r :: rest).map Row.country).dedup.length :=
      lt_min (by norm_num) hpos
    simp only [List.length_nil] at hlen
    rw [← hlen] at hmin
    exact lt_irrefl 0 hmin

/-- Claim C9: when the date-filtered subset is empty the pipeline stops with
the empty-result signal and computes nothing downstream; when it is
non-empty, the run produces the full output record, in which the
country-trends view is `none` exactly when its regional scope is empty,
while the daily series and the regional summary are still produced. -/
theorem empty_result_handling (rows : List Row) (w : Window) (s e : Day)
    (target : Option String) :
    (filterByDate rows s e = [] → runDashboard rows w s e target = DashResult.empty)
    ∧ (filterByDate rows s e ≠ [] →
        runDashboard rows w s e target
            = DashResult.ok (computeOutputs (filterByDate rows s e) w target)
        ∧ ((computeOutputs (filterByDate rows s e) w target).countryView = none
            ↔ dfScope (filterByDate rows s e) target = [])
        ∧ (computeOutputs (filterByDate rows s e) w target).series
            = dfTs (filterByDate rows s e) (hospCol w) (icuCol w)
        ∧ (computeOutputs (filterByDate rows s e) w target).regional
            = dfReg (filterByDate rows s e)) := by
  have hcv : (computeOutputs (filterByDate rows s e) w target).countryView
      = (if (dfScope (filterByDate rows s e) target).isEmpty then none
        else if (topCountries (dfScope (filterByDate rows s e) target)).isEmpty then none
        else some (topCountries (dfScope (filterByDate rows s e) target))) := rfl
  constructor
  · intro h
    rw [runDashboard]
    simp [h]
  · intro h
    refine ⟨?_, ?_, rfl, rfl⟩
    · rw [runDashboard]
      simp [h]
    · rw [hcv]
      by_cases hsc : dfScope (filterByDate rows s e) target = []
      · simp [hsc]
      · have h1 : (dfScope (filterByDate rows s e) target).isEmpty = false := by
          simpa [List.isEmpty_iff] using hsc
        have h2 : (topCountries (dfScope (filterByDate rows s e) target)).isEmpty = false := by
          simpa [List.isEmpty_iff] using topCountries_ne_nil hsc
        simp [h1, h2, hsc]

/-- Witness for C9 at concrete inputs: an all-excluding filter yields the
empty signal, and a non-empty filtered set with an empty EUR scope yields a
`none` country view. -/
theorem empty_result_handling_witness :
    runDashboard [] .weekly 0 0 none = DashResult.empty
    ∧ (computeOutputs (filterByDate [rowX] 0 5) .weekly (some "EUR")).countryView = none := by
  have h1 := (empty_result_handling [] .weekly 0 0 none).1 rfl
  have h2 := ((empty_result_handling [rowX] .weekly 0 5 (some "EUR")).2 (by decide)).2.1
  exact ⟨h1, h2.mpr (by decide)⟩
